import Mathlib

/-!
# The fetch-decode-execute engine of `cpu.c`

A shallow embedding of `src/cpu.c`: the global machine state, the two dispatch
tables, `fetch`, `SignalHandler` and the state machine of `RunMachine`, followed by
the properties of the engine that are checked against the specification.

Conventions of the embedding.

* `signed short` registers are integers; a store into a register wraps with `toShort`,
  a conversion to `unsigned short` is `toUShort`.
* `unsigned long SYS_CLK` is a natural number reduced modulo `ULONG_RANGE` on increment.
* The opcode handlers (`Process_ADD`, ...) are not part of `cpu.c`. They are named by
  the type `Handler`; what they do is a parameter (`Externals.handler`), and every
  invocation is recorded in the machine's event log.
* The macros of `cpu.h` and `memory.h` are not part of `cpu.c` either. `INST_TYPE` is a
  parameter (`Externals.INST_TYPE`); the field extractors used to index the tables and
  the bus read are given by the bit ranges the specification and the comments state.
* A call through a table index outside the table is undefined behaviour in C; the
  `EXECUTE` step returns `Option.none` there.
-/

namespace Emulator

/-! ## Constants -/

/-- The constant `FALSE`, the initial value of `inst` in `fetch` and the value
`RunMachine` compares the fetched word with. -/
def FALSE : Nat := 0

/-- The reserved halt address: "Prevent Accessing Location 0xFFFF (HCF)". -/
def HCF : Nat := 0xFFFF

/-- Index of the program counter in `REG_FILE`: "R7 - PC". -/
def PC : Fin 8 := 7

/-- Number of values of `unsigned long SYS_CLK`: "Range of Values: 0 to 4,294,967,295". -/
def ULONG_RANGE : Nat := 4294967296

/-- Conversion of an integer to `signed short` (two's complement wrap-around), as done
by the store of `REG_FILE[PC] += 2`. -/
def toShort (x : Int) : Int := (x + 32768) % 65536 - 32768

/-- Conversion of a `signed short` to `unsigned short`, as done by
`unsigned short eff_addr = REG_FILE[PC]`. -/
def toUShort (x : Int) : Nat := (x % 65536).toNat

/-! ## Enumerations -/

/-- The type `enum CPU_STATES` with the four states used by `RunMachine`. -/
inductive CPU_STATES where
  | FETCH
  | DECODE
  | EXECUTE
  | HANDLE_DEVICES
  deriving DecidableEq, Repr

/-- The type `enum WORD_BYTE`, the width selector passed to `MEM_RD`. -/
inductive WORD_BYTE where
  | WORD
  | BYTE
  deriving DecidableEq, Repr

/-- The seven case labels of `switch (type)` in the `EXECUTE` state. -/
inductive INST_TYPES where
  | BRANCH_BL
  | BRANCH
  | ARITHMETIC
  | LD_ST_MOVL_MOVLZ
  | MOVH
  | LDR
  | STR
  deriving DecidableEq, Repr

/-- Names of the functions that `cpu.c` calls as opcode handlers: the members of the two
tables and the handlers called directly by the `EXECUTE` switch. -/
inductive Handler where
  | Process_BL
  | Process_BEQ
  | Process_BNE
  | Process_BC
  | Process_BNC
  | Process_BN
  | Process_BGE
  | Process_BLT
  | Process_BAL
  | none
  | Process_ADD
  | Process_ADDC
  | Process_SUB
  | Process_SUBC
  | Process_DADD
  | Process_CMP
  | Process_XOR
  | Process_AND
  | Process_BIT
  | Process_SRA
  | Process_BIC
  | Process_RRC
  | Process_BIS
  | Process_SWPB
  | Process_MOV
  | Process_SXT
  | Process_SWAP
  | Process_LD
  | Process_ST
  | Process_MOVL
  | Process_MOVLZ
  | Process_MOVH
  | Process_LDR
  | Process_STR
  deriving DecidableEq, Repr

/-! ## Dispatch tables -/

/-- The table `BRANCH_PTR`: branch handlers in the order of bits 12, 11, 10. -/
def BRANCH_PTR : List Handler :=
  [ Handler.Process_BEQ,   -- 0 0 0
    Handler.Process_BNE,   -- 0 0 1
    Handler.Process_BC,    -- 0 1 0
    Handler.Process_BNC,   -- 0 1 1
    Handler.Process_BN,    -- 1 0 0
    Handler.Process_BGE,   -- 1 0 1
    Handler.Process_BLT,   -- 1 1 0
    Handler.Process_BAL ]  -- 1 1 1

/-- The table `ARITHMETIC_PTR`, entry by entry as initialised in `cpu.c`. -/
def ARITHMETIC_PTR : List Handler :=
  [ Handler.Process_ADD,   -- 0 0 0 0 0
    Handler.none,
    Handler.Process_ADDC,  -- 0 0 0 1 0
    Handler.none,
    Handler.Process_SUB,   -- 0 0 1 0 0
    Handler.none,
    Handler.Process_SUBC,  -- 0 0 1 1 0
    Handler.none,
    Handler.Process_DADD,  -- 0 1 0 0 0
    Handler.none,
    Handler.Process_CMP,   -- 0 1 0 1 0
    Handler.none,
    Handler.Process_XOR,   -- 0 1 1 0 0
    Handler.none,
    Handler.Process_AND,   -- 0 1 1 1 0
    Handler.none,
    Handler.Process_BIT,   -- 1 0 0 0 0
    Handler.Process_SRA,   -- 1 0 0 0 1
    Handler.Process_BIC,   -- 1 0 0 1 0
    Handler.Process_RRC,   -- 1 0 0 1 1
    Handler.Process_BIS,   -- 1 0 1 0 0
    Handler.Process_SWPB,  -- 1 0 1 0 1
    Handler.Process_MOV,   -- 1 0 1 1 0
    Handler.Process_SXT,   -- 1 0 1 1 1
    Handler.Process_SWAP ] -- 1 1 0 0 0

/-! ## Macros of the absent headers -/

/-- Modelled from the spec: the macro `BRANCH_TYPE` of `cpu.h`, which is not in the
sources. Section 6 and the comments of `BRANCH_PTR` give the field: the 3-bit condition
select in bits 12 to 10 of the instruction word. -/
def BRANCH_TYPE (INST : Nat) : Nat := (INST >>> 10) &&& 0x7

/-- Modelled from the spec: the macro `ARITH_TYPE` of `cpu.h`, which is not in the
sources. Section 6 and the comments of `ARITHMETIC_PTR` give the field: the 5-bit opcode
select in bits 12 to 8 of the instruction word. -/
def ARITH_TYPE (INST : Nat) : Nat := (INST >>> 8) &&& 0x1F

/-- Modelled from the spec: the case label `LD` of the sub-type switch, an enumerator of
`cpu.h`, which is not in the sources. Section 4.2 lists the four sub-classes selected by
bits 12 and 11 in the order Load, Store, Move-Low, Move-Low-Zero-extend. -/
def LD : Nat := 0

/-- Modelled from the spec: the case label `ST` (see `LD`). -/
def ST : Nat := 1

/-- Modelled from the spec: the case label `MOVL` (see `LD`). -/
def MOVL : Nat := 2

/-- Modelled from the spec: the case label `MOVLZ` (see `LD`). -/
def MOVLZ : Nat := 3

/-- Modelled from the spec: the macro `MEM_RD` of `memory.h`, which is not in the
sources. Section 4.1: a `Word` read combines the bytes stored at `address` and
`address + 1` little-endian, `value = low | (high << 8)`; a `Byte` read returns the
single byte zero-extended. Memory is a map from addresses to bytes. -/
def MEM_RD (MEM : Nat → Nat) (address : Nat) : WORD_BYTE → Nat
  | WORD_BYTE.WORD => (MEM address % 256) ||| ((MEM (address + 1) % 256) <<< 8)
  | WORD_BYTE.BYTE => MEM address % 256

/-! ## Machine state -/

/-- The part of the global state that opcode handlers may read and write: the register
file, the system clock and the memory behind the bus. -/
structure ArchState where
  /-- The array `signed short REG_FILE[]` of eight registers. -/
  REG_FILE : Fin 8 → Int
  /-- The counter `unsigned long SYS_CLK`. -/
  SYS_CLK : Nat
  /-- The bytes of the memory behind the bus. -/
  MEM : Nat → Nat

/-- Events the engine produces: a read presented to the bus and the invocation of an
opcode handler (with the instruction word its operands are extracted from). -/
inductive Event where
  | read (address : Nat) (width : WORD_BYTE)
  | call (h : Handler) (INST : Nat)
  deriving DecidableEq, Repr

/-- The state of the program: the globals of `cpu.c`, the locals of `RunMachine` and
the log of events produced so far. -/
structure Machine where
  /-- The flag `int WAITING_FOR_SIGNAL`, holding `TRUE` or `FALSE`. -/
  WAITING_FOR_SIGNAL : Bool
  /-- The variable `enum CPU_STATES state`. -/
  state : CPU_STATES
  /-- Register file, clock and memory. -/
  arch : ArchState
  /-- The local `unsigned short INST`. -/
  INST : Nat
  /-- The local `unsigned int type`: the case label it equals, or `Option.none` when it
  equals none of the seven labels. -/
  type : Option INST_TYPES
  /-- The local `unsigned int temp_type`. -/
  temp_type : Nat
  /-- Events produced so far, oldest first. -/
  log : List Event

/-- The collaborators of `cpu.c` that are not in the sources. -/
structure Externals where
  /-- The macro `INST_TYPE` of `cpu.h`: the case label of the class of an instruction
  word, or `Option.none` when the value it computes is none of the seven labels. -/
  INST_TYPE : Nat → Option INST_TYPES
  /-- What an opcode handler does, given the instruction word from which the operand
  macros (`BL_OFFSET`, `ARITH_SRC`, ...) extract its arguments. -/
  handler : Handler → Nat → ArchState → ArchState

/-! ## `fetch`, `SignalHandler` and `RunMachine` -/

/-- Invocation of an opcode handler on the instruction word in `INST`: the handler acts
on registers, clock and memory, and the invocation is logged. -/
def call (x : Externals) (h : Handler) (m : Machine) : Machine :=
  { m with arch := x.handler h m.INST m.arch, log := m.log ++ [Event.call h m.INST] }

/-- The function `fetch`: the word at the address in `PC`, or `FALSE` without a bus read
when that address is `HCF`. Returns the value of `inst` and the machine with the read
logged. -/
def fetch (m : Machine) : Nat × Machine :=
  let inst := FALSE
  let eff_addr := toUShort (m.arch.REG_FILE PC)
  if eff_addr ≠ HCF then
    (MEM_RD m.arch.MEM eff_addr WORD_BYTE.WORD % 65536,
      { m with log := m.log ++ [Event.read eff_addr WORD_BYTE.WORD] })
  else
    (inst, m)

/-- The function `SignalHandler`: clears the run-flag (and re-installs itself). -/
def SignalHandler (m : Machine) : Machine :=
  { m with WAITING_FOR_SIGNAL := false }

/-- The `case FETCH` of `RunMachine`. -/
def caseFETCH (m : Machine) : Machine :=
  let r := fetch m
  let m1 : Machine := { r.2 with INST := r.1 }
  let m2 : Machine :=
    if r.1 = FALSE then { m1 with state := CPU_STATES.HANDLE_DEVICES }
    else { m1 with state := CPU_STATES.DECODE }
  { m2 with arch := { m2.arch with
      REG_FILE := Function.update m2.arch.REG_FILE PC (toShort (m2.arch.REG_FILE PC + 2)) } }

/-- The `case DECODE` of `RunMachine`. -/
def caseDECODE (x : Externals) (m : Machine) : Machine :=
  { m with type := x.INST_TYPE m.INST, state := CPU_STATES.EXECUTE }

/-- The inner `switch (temp_type)` of the `LD_ST_MOVL_MOVLZ` case; it has no default. -/
def switchTempType (x : Externals) (m : Machine) : Machine :=
  if m.temp_type = LD then call x Handler.Process_LD m
  else if m.temp_type = ST then call x Handler.Process_ST m
  else if m.temp_type = MOVL then call x Handler.Process_MOVL m
  else if m.temp_type = MOVLZ then call x Handler.Process_MOVLZ m
  else m

/-- The `switch (type)` of the `EXECUTE` state; it has no default. A call through an
index outside a table has no defined result. -/
def switchType (x : Externals) (m : Machine) : Option Machine :=
  match m.type with
  | some INST_TYPES.BRANCH_BL => some (call x Handler.Process_BL m)
  | some INST_TYPES.BRANCH =>
      (BRANCH_PTR[BRANCH_TYPE m.INST]?).map (fun h => call x h m)
  | some INST_TYPES.ARITHMETIC =>
      (ARITHMETIC_PTR[ARITH_TYPE m.INST]?).map (fun h => call x h m)
  | some INST_TYPES.LD_ST_MOVL_MOVLZ =>
      some (switchTempType x { m with temp_type := (m.INST &&& 0x1800) >>> 11 })
  | some INST_TYPES.MOVH => some (call x Handler.Process_MOVH m)
  | some INST_TYPES.LDR => some (call x Handler.Process_LDR m)
  | some INST_TYPES.STR => some (call x Handler.Process_STR m)
  | Option.none => some m

/-- The `case EXECUTE` of `RunMachine`: dispatch, then `SYS_CLK++`, then the transition. -/
def caseEXECUTE (x : Externals) (m : Machine) : Option Machine :=
  (switchType x m).map (fun m1 =>
    { m1 with
      arch := { m1.arch with SYS_CLK := (m1.arch.SYS_CLK + 1) % ULONG_RANGE }
      state := CPU_STATES.HANDLE_DEVICES })

/-- The `case HANDLE_DEVICES` of `RunMachine`. -/
def caseHANDLE_DEVICES (m : Machine) : Machine :=
  { m with state := CPU_STATES.FETCH }

/-- One pass through `switch (state)`, the body of the loop of `RunMachine`. -/
def step (x : Externals) (m : Machine) : Option Machine :=
  match m.state with
  | CPU_STATES.FETCH => some (caseFETCH m)
  | CPU_STATES.DECODE => some (caseDECODE x m)
  | CPU_STATES.EXECUTE => caseEXECUTE x m
  | CPU_STATES.HANDLE_DEVICES => some (caseHANDLE_DEVICES m)

/-- The machine after `n` consecutive passes through the body of the loop. -/
def steps (x : Externals) : Nat → Machine → Option Machine
  | 0, m => some m
  | n + 1, m => (step x m).bind (steps x n)

/-- How an observation of the loop of `RunMachine` ends. -/
inductive Outcome where
  /-- The loop condition was found false: the loop was left in this machine state. -/
  | exited (m : Machine)
  /-- The observed signal schedule ended with the loop still running. -/
  | running (m : Machine)
  /-- A step had no defined result. -/
  | undefined

/-- The loop `while (WAITING_FOR_SIGNAL) { switch (state) ... }`. The list says, for each
pass through the body in turn, whether SIGINT is delivered during that pass (so that
`SignalHandler` has run before the condition is tested again). -/
def loop (x : Externals) : List Bool → Machine → Outcome
  | [], m => if m.WAITING_FOR_SIGNAL then Outcome.running m else Outcome.exited m
  | s :: rest, m =>
      if m.WAITING_FOR_SIGNAL then
        match step x m with
        | Option.none => Outcome.undefined
        | some m1 => loop x rest (if s then SignalHandler m1 else m1)
      else Outcome.exited m

/-- The function `RunMachine`: `state = FETCH`, then the loop. -/
def RunMachine (x : Externals) (sigs : List Bool) (m : Machine) : Outcome :=
  loop x sigs { m with state := CPU_STATES.FETCH }

/-! ## Sample data -/

/-- Collaborators for concrete runs: every word is classified `ARITHMETIC` and no
handler changes anything. -/
def sampleExternals : Externals :=
  { INST_TYPE := fun _ => some INST_TYPES.ARITHMETIC
    handler := fun _ _ a => a }

/-- A machine in state `FETCH` with the run-flag set, the given `PC`, all other registers
zero, the clock at zero, every byte of memory equal to `byte`, and an empty log. -/
def sampleMachine (pc : Int) (byte : Nat) : Machine :=
  { WAITING_FOR_SIGNAL := true
    state := CPU_STATES.FETCH
    arch :=
      { REG_FILE := Function.update (fun _ => 0) PC pc
        SYS_CLK := 0
        MEM := fun _ => byte }
    INST := 0
    type := Option.none
    temp_type := 0
    log := [] }

/-- A machine in state `EXECUTE` holding the instruction word `INST` classified as
`ARITHMETIC`; registers, clock and memory are zero. -/
def sampleArithmetic (INST : Nat) : Machine :=
  { WAITING_FOR_SIGNAL := true
    state := CPU_STATES.EXECUTE
    arch :=
      { REG_FILE := fun _ => 0
        SYS_CLK := 0
        MEM := fun _ => 0 }
    INST := INST
    type := some INST_TYPES.ARITHMETIC
    temp_type := 0
    log := [] }

/-- The globals of `cpu.c` as their initialisers leave them when the program is loaded:
`WAITING_FOR_SIGNAL = TRUE`, eight registers equal to 0, and the clock, which has no
initialiser, at 0. The state is the one `RunMachine` sets first; the locals and the log
are empty. Memory is whatever the loader put there. -/
def initialMachine (MEM : Nat → Nat) : Machine :=
  { WAITING_FOR_SIGNAL := true
    state := CPU_STATES.FETCH
    arch :=
      { REG_FILE := fun _ => 0
        SYS_CLK := 0
        MEM := MEM }
    INST := 0
    type := Option.none
    temp_type := 0
    log := [] }

/-- A machine in state `FETCH` with the run-flag set whose status word ("R6 - PSW") is
-1, that is, has all sixteen bits set, whichever of them is the sleep bit; the other
registers are zero and every byte of memory is 1. -/
def sampleSleeping : Machine :=
  { WAITING_FOR_SIGNAL := true
    state := CPU_STATES.FETCH
    arch :=
      { REG_FILE := Function.update (fun _ => 0) 6 (-1)
        SYS_CLK := 0
        MEM := fun _ => 1 }
    INST := 0
    type := Option.none
    temp_type := 0
    log := [] }

/-- The index written as a bit pattern "Bits: (12, 11, 10, 9, 8) = b12 b11 b10 b9 b8" in
the comments of `ARITHMETIC_PTR`. -/
def opcodeBits (b12 b11 b10 b9 b8 : Nat) : Nat :=
  16 * b12 + 8 * b11 + 4 * b10 + 2 * b9 + b8

/-! ## Basic facts -/

theorem toUShort_lt (x : Int) : toUShort x < 65536 := by
  unfold toUShort
  omega

theorem toUShort_toShort (x : Int) : toUShort (toShort x) = toUShort x := by
  unfold toUShort toShort
  omega

theorem toUShort_toShort_add_two (x : Int) :
    toUShort (toShort (x + 2)) = (toUShort x + 2) % 65536 := by
  unfold toUShort toShort
  omega

theorem MEM_RD_lt (MEM : Nat → Nat) (a : Nat) (w : WORD_BYTE) : MEM_RD MEM a w < 65536 := by
  cases w
  · show (MEM a % 256) ||| ((MEM (a + 1) % 256) <<< 8) < 2 ^ 16
    apply Nat.or_lt_two_pow
    · have := Nat.mod_lt (MEM a) (show 0 < 256 by decide)
      omega
    · rw [Nat.shiftLeft_eq]
      have := Nat.mod_lt (MEM (a + 1)) (show 0 < 256 by decide)
      omega
  · show MEM a % 256 < 65536
    have := Nat.mod_lt (MEM a) (show 0 < 256 by decide)
    omega

theorem BRANCH_TYPE_lt (INST : Nat) : BRANCH_TYPE INST < 8 :=
  Nat.and_lt_two_pow _ (show 0x7 < 2 ^ 3 by decide)

theorem ARITH_TYPE_lt (INST : Nat) : ARITH_TYPE INST < 32 :=
  Nat.and_lt_two_pow _ (show 0x1F < 2 ^ 5 by decide)

/-! ## The dispatch tables -/

/-- C1 (code defect): the table `ARITHMETIC_PTR` has 25 entries, not 32. A lookup is
outside the table exactly for the indices from 25 upwards, the 5-bit opcode field of the
word `0x5900` is 25, and the lookup made for it finds no entry. -/
theorem C1_arithmetic_table_has_25_entries :
    ARITHMETIC_PTR.length = 25 ∧
    (∀ i : Nat, ARITHMETIC_PTR[i]? = Option.none ↔ 25 ≤ i) ∧
    ARITH_TYPE 0x5900 = 25 ∧
    ARITHMETIC_PTR[ARITH_TYPE 0x5900]? = Option.none := by
  refine ⟨rfl, ?_, by decide, by decide⟩
  intro i
  rw [List.getElem?_eq_none_iff]
  exact Iff.rfl

/-- C9: the table `BRANCH_PTR` has exactly 8 entries; entry `c` is the handler of the
`c`-th condition in the order BEQ, BNE, BC, BNC, BN, BGE, BLT, BAL; the index that
`BRANCH_TYPE` extracts from any instruction word has an entry; and the eight entries are
pairwise distinct. -/
theorem C9_branch_table :
    BRANCH_PTR.length = 8 ∧
    BRANCH_PTR[0]? = some Handler.Process_BEQ ∧
    BRANCH_PTR[1]? = some Handler.Process_BNE ∧
    BRANCH_PTR[2]? = some Handler.Process_BC ∧
    BRANCH_PTR[3]? = some Handler.Process_BNC ∧
    BRANCH_PTR[4]? = some Handler.Process_BN ∧
    BRANCH_PTR[5]? = some Handler.Process_BGE ∧
    BRANCH_PTR[6]? = some Handler.Process_BLT ∧
    BRANCH_PTR[7]? = some Handler.Process_BAL ∧
    (∀ c : Fin 8, ∃ h, BRANCH_PTR[c.val]? = some h) ∧
    (∀ INST : Nat, ∃ h, BRANCH_PTR[BRANCH_TYPE INST]? = some h) ∧
    BRANCH_PTR.Nodup := by
  refine ⟨rfl, rfl, rfl, rfl, rfl, rfl, rfl, rfl, rfl, ?_, ?_, by decide⟩
  · intro c
    have h : c.val < BRANCH_PTR.length := c.isLt
    exact ⟨BRANCH_PTR[c.val], List.getElem?_eq_getElem h⟩
  · intro INST
    have h : BRANCH_TYPE INST < BRANCH_PTR.length := BRANCH_TYPE_lt INST
    exact ⟨BRANCH_PTR[BRANCH_TYPE INST], List.getElem?_eq_getElem h⟩

/-! ## `fetch` -/

theorem fetch_of_ne (m : Machine) (h : toUShort (m.arch.REG_FILE PC) ≠ HCF) :
    fetch m = (MEM_RD m.arch.MEM (toUShort (m.arch.REG_FILE PC)) WORD_BYTE.WORD,
      { m with log := m.log ++ [Event.read (toUShort (m.arch.REG_FILE PC)) WORD_BYTE.WORD] }) := by
  simp only [fetch, h, ne_eq, not_false_eq_true, if_true]
  rw [Nat.mod_eq_of_lt (MEM_RD_lt _ _ _)]

theorem fetch_of_eq (m : Machine) (h : toUShort (m.arch.REG_FILE PC) = HCF) :
    fetch m = (FALSE, m) := by
  simp [fetch, h]

/-- C6: `fetch` issues a bus read if and only if `PC`, as an unsigned 16-bit address,
differs from `0xFFFF`. When it reads, it adds exactly one event, a `WORD` read at that
address, and returns the word the bus delivers; when `PC` is `0xFFFF` it adds no event and
returns 0. In both cases nothing but the log changes, and no read of address `0xFFFF` is
among the events added. -/
theorem C6_fetch_reads_unless_halt_address (m : Machine) :
    (toUShort (m.arch.REG_FILE PC) ≠ 0xFFFF →
      (fetch m).2.log = m.log ++ [Event.read (toUShort (m.arch.REG_FILE PC)) WORD_BYTE.WORD] ∧
      (fetch m).1 = MEM_RD m.arch.MEM (toUShort (m.arch.REG_FILE PC)) WORD_BYTE.WORD) ∧
    (toUShort (m.arch.REG_FILE PC) = 0xFFFF → (fetch m).2.log = m.log ∧ (fetch m).1 = 0) ∧
    ((∃ a w, (fetch m).2.log = m.log ++ [Event.read a w]) ↔
      toUShort (m.arch.REG_FILE PC) ≠ 0xFFFF) ∧
    (∀ w, (fetch m).2.log ≠ m.log ++ [Event.read 0xFFFF w]) ∧
    (fetch m).2 = { m with log := (fetch m).2.log } := by
  by_cases h : toUShort (m.arch.REG_FILE PC) = HCF
  · have h1 : toUShort (m.arch.REG_FILE PC) = 0xFFFF := h
    rw [fetch_of_eq m h]
    refine ⟨fun hne => absurd h1 hne, fun _ => ⟨rfl, rfl⟩, ?_, ?_, rfl⟩
    · constructor
      · rintro ⟨a, w, he⟩
        simp at he
      · intro hne
        exact absurd h1 hne
    · intro w he
      simp at he
  · have h1 : toUShort (m.arch.REG_FILE PC) ≠ 0xFFFF := h
    rw [fetch_of_ne m h]
    refine ⟨fun _ => ⟨rfl, rfl⟩, fun he => absurd he h1, ?_, ?_, rfl⟩
    · constructor
      · intro _
        exact h1
      · intro _
        exact ⟨_, _, rfl⟩
    · intro w he
      simp only [List.append_cancel_left_eq, List.cons.injEq, Event.read.injEq, and_true] at he
      exact h1 he.1

/-! ## The four cases of `switch (state)` -/

theorem caseFETCH_state (m : Machine) :
    (caseFETCH m).state =
      if (fetch m).1 = FALSE then CPU_STATES.HANDLE_DEVICES else CPU_STATES.DECODE := by
  unfold caseFETCH
  by_cases h : (fetch m).1 = FALSE <;> simp [h]

theorem caseFETCH_state_cases (m : Machine) :
    (caseFETCH m).state = CPU_STATES.HANDLE_DEVICES ∨ (caseFETCH m).state = CPU_STATES.DECODE := by
  rw [caseFETCH_state]
  by_cases h : (fetch m).1 = FALSE <;> simp [h]

theorem fetch_arch (m : Machine) : (fetch m).2.arch = m.arch := by
  unfold fetch
  by_cases h : toUShort (m.arch.REG_FILE PC) = HCF <;> simp [h]

theorem fetch_flag (m : Machine) : (fetch m).2.WAITING_FOR_SIGNAL = m.WAITING_FOR_SIGNAL := by
  unfold fetch
  by_cases h : toUShort (m.arch.REG_FILE PC) = HCF <;> simp [h]

theorem caseFETCH_INST (m : Machine) : (caseFETCH m).INST = (fetch m).1 := by
  unfold caseFETCH
  by_cases h : (fetch m).1 = FALSE <;> simp [h]

theorem caseFETCH_log (m : Machine) : (caseFETCH m).log = (fetch m).2.log := by
  unfold caseFETCH
  by_cases h : (fetch m).1 = FALSE <;> simp [h]

theorem caseFETCH_flag (m : Machine) :
    (caseFETCH m).WAITING_FOR_SIGNAL = m.WAITING_FOR_SIGNAL := by
  unfold caseFETCH
  by_cases h : (fetch m).1 = FALSE <;> simp [h, fetch_flag]

theorem caseFETCH_REG_FILE (m : Machine) :
    (caseFETCH m).arch.REG_FILE =
      Function.update m.arch.REG_FILE PC (toShort (m.arch.REG_FILE PC + 2)) := by
  unfold caseFETCH
  by_cases h : (fetch m).1 = FALSE <;> simp [h, fetch_arch]

theorem caseFETCH_SYS_CLK (m : Machine) : (caseFETCH m).arch.SYS_CLK = m.arch.SYS_CLK := by
  unfold caseFETCH
  by_cases h : (fetch m).1 = FALSE <;> simp [h, fetch_arch]

theorem caseFETCH_MEM (m : Machine) : (caseFETCH m).arch.MEM = m.arch.MEM := by
  unfold caseFETCH
  by_cases h : (fetch m).1 = FALSE <;> simp [h, fetch_arch]

theorem caseFETCH_PC (m : Machine) :
    (caseFETCH m).arch.REG_FILE PC = toShort (m.arch.REG_FILE PC + 2) := by
  rw [caseFETCH_REG_FILE, Function.update_same]

theorem caseFETCH_other (m : Machine) (i : Fin 8) (h : i ≠ PC) :
    (caseFETCH m).arch.REG_FILE i = m.arch.REG_FILE i := by
  rw [caseFETCH_REG_FILE, Function.update_noteq h]

/-- The `FETCH` step goes to `HANDLE_DEVICES` exactly when `fetch` returns `FALSE`: when
`PC` is the halt address, or when the word the bus delivers is zero. -/
theorem caseFETCH_state_eq_HANDLE_DEVICES_iff (m : Machine) :
    (caseFETCH m).state = CPU_STATES.HANDLE_DEVICES ↔
      (toUShort (m.arch.REG_FILE PC) = 0xFFFF ∨
        MEM_RD m.arch.MEM (toUShort (m.arch.REG_FILE PC)) WORD_BYTE.WORD = 0) := by
  rw [caseFETCH_state]
  by_cases h : toUShort (m.arch.REG_FILE PC) = HCF
  · have h1 : toUShort (m.arch.REG_FILE PC) = 0xFFFF := h
    rw [fetch_of_eq m h]
    simp [h1]
  · have h1 : toUShort (m.arch.REG_FILE PC) ≠ 0xFFFF := h
    rw [fetch_of_ne m h]
    by_cases h0 : MEM_RD m.arch.MEM (toUShort (m.arch.REG_FILE PC)) WORD_BYTE.WORD = 0
    · simp [h0, FALSE]
    · simp [h0, h1, FALSE]

/-- C2 (code defect): the `FETCH` step goes to `HANDLE_DEVICES` whenever `fetch` returns
zero, which happens at the halt address and also when the word read is `0x0000`. With
`PC = 0` and zero bytes at addresses 0 and 1, the machine in state `FETCH` reads the word
at address 0 from the bus and then moves to `HANDLE_DEVICES`, not to `DECODE`, although
`PC` is not `0xFFFF`. -/
theorem C2_zero_word_is_taken_as_not_fetched :
    (sampleMachine 0 0).state = CPU_STATES.FETCH ∧
    toUShort ((sampleMachine 0 0).arch.REG_FILE PC) = 0 ∧
    MEM_RD (sampleMachine 0 0).arch.MEM 0 WORD_BYTE.WORD = 0 ∧
    (∃ m, step sampleExternals (sampleMachine 0 0) = some m ∧
      m.log = [Event.read 0 WORD_BYTE.WORD] ∧
      m.state = CPU_STATES.HANDLE_DEVICES) := by
  refine ⟨rfl, by decide, by decide, _, rfl, by decide, by decide⟩

theorem temp_type_lt (INST : Nat) : (INST &&& 0x1800) >>> 11 < 4 := by
  have h : INST &&& 0x1800 ≤ 0x1800 := Nat.and_le_right
  rw [Nat.shiftRight_eq_div_pow]
  omega

/-- The inner switch calls exactly one of the four sub-type handlers when `temp_type` is
below 4. -/
theorem switchTempType_calls (x : Externals) (m : Machine) (h : m.temp_type < 4) :
    ∃ g, g ∈ [Handler.Process_LD, Handler.Process_ST, Handler.Process_MOVL,
        Handler.Process_MOVLZ] ∧ switchTempType x m = call x g m := by
  unfold switchTempType LD ST MOVL MOVLZ
  have h4 : m.temp_type = 0 ∨ m.temp_type = 1 ∨ m.temp_type = 2 ∨ m.temp_type = 3 := by omega
  rcases h4 with h0 | h0 | h0 | h0
  · exact ⟨Handler.Process_LD, by simp, by simp [h0]⟩
  · exact ⟨Handler.Process_ST, by simp, by simp [h0]⟩
  · exact ⟨Handler.Process_MOVL, by simp, by simp [h0]⟩
  · exact ⟨Handler.Process_MOVLZ, by simp, by simp [h0]⟩

/-- The dispatch of `EXECUTE` has no defined result exactly when the class is
`ARITHMETIC` and the opcode field is 25 or more. -/
theorem switchType_eq_none_iff (x : Externals) (m : Machine) :
    switchType x m = Option.none ↔
      (m.type = some INST_TYPES.ARITHMETIC ∧ 25 ≤ ARITH_TYPE m.INST) := by
  unfold switchType
  rcases hT : m.type with _ | t
  · simp
  · cases t
    case BRANCH =>
      have hb : BRANCH_TYPE m.INST < BRANCH_PTR.length := BRANCH_TYPE_lt m.INST
      simp [List.getElem?_eq_getElem hb]
    case ARITHMETIC =>
      simp only [Option.map_eq_none', List.getElem?_eq_none_iff, true_and]
      exact Iff.rfl
    all_goals simp

/-- What the dispatch of `EXECUTE` does when it has a result: nothing when `type` matches
no case label, and otherwise exactly one handler call, made on the machine with at most
`temp_type` changed. -/
theorem switchType_eq_some (x : Externals) (m m1 : Machine) (h : switchType x m = some m1) :
    (m.type = Option.none ∧ m1 = m) ∨
    (m.type ≠ Option.none ∧ ∃ g t, m1 = call x g { m with temp_type := t }) := by
  unfold switchType at h
  split at h
  case h_8 hT =>
    left
    simp only [Option.some.injEq] at h
    exact ⟨hT, h.symm⟩
  case h_2 hT =>
    right
    simp only [Option.map_eq_some'] at h
    obtain ⟨g, _, hg⟩ := h
    exact ⟨by simp [hT], g, m.temp_type, hg.symm⟩
  case h_3 hT =>
    right
    simp only [Option.map_eq_some'] at h
    obtain ⟨g, _, hg⟩ := h
    exact ⟨by simp [hT], g, m.temp_type, hg.symm⟩
  case h_4 hT =>
    right
    simp only [Option.some.injEq] at h
    obtain ⟨g, _, hg⟩ := switchTempType_calls x
      { m with temp_type := (m.INST &&& 0x1800) >>> 11 } (temp_type_lt m.INST)
    exact ⟨by simp [hT], g, (m.INST &&& 0x1800) >>> 11, by rw [← h, hg]⟩
  all_goals
    rename_i hT
    right
    simp only [Option.some.injEq] at h
    exact ⟨by simp [hT], _, m.temp_type, h.symm⟩

theorem caseEXECUTE_eq_none_iff (x : Externals) (m : Machine) :
    caseEXECUTE x m = Option.none ↔
      (m.type = some INST_TYPES.ARITHMETIC ∧ 25 ≤ ARITH_TYPE m.INST) := by
  unfold caseEXECUTE
  rw [Option.map_eq_none', switchType_eq_none_iff]

theorem caseEXECUTE_eq_some (x : Externals) (m m2 : Machine) (h : caseEXECUTE x m = some m2) :
    ∃ m1, switchType x m = some m1 ∧
      m2 = { m1 with
        arch := { m1.arch with SYS_CLK := (m1.arch.SYS_CLK + 1) % ULONG_RANGE }
        state := CPU_STATES.HANDLE_DEVICES } := by
  unfold caseEXECUTE at h
  rw [Option.map_eq_some'] at h
  obtain ⟨m1, h1, h2⟩ := h
  exact ⟨m1, h1, h2.symm⟩

theorem caseEXECUTE_state (x : Externals) (m m2 : Machine) (h : caseEXECUTE x m = some m2) :
    m2.state = CPU_STATES.HANDLE_DEVICES := by
  obtain ⟨m1, _, h2⟩ := caseEXECUTE_eq_some x m m2 h
  rw [h2]

/-- The `EXECUTE` step increments the clock by one when the handlers leave it alone. -/
theorem caseEXECUTE_SYS_CLK (x : Externals)
    (hclk : ∀ g INST a, (x.handler g INST a).SYS_CLK = a.SYS_CLK)
    (m m2 : Machine) (h : caseEXECUTE x m = some m2) :
    m2.arch.SYS_CLK = (m.arch.SYS_CLK + 1) % ULONG_RANGE := by
  obtain ⟨m1, h1, h2⟩ := caseEXECUTE_eq_some x m m2 h
  rw [h2]
  rcases switchType_eq_some x m m1 h1 with ⟨_, he⟩ | ⟨_, g, t, he⟩
  · rw [he]
  · rw [he]
    simp [call, hclk]

/-- The `EXECUTE` step leaves a register alone when the handlers do. -/
theorem caseEXECUTE_REG_FILE (x : Externals) (i : Fin 8)
    (hreg : ∀ g INST a, (x.handler g INST a).REG_FILE i = a.REG_FILE i)
    (m m2 : Machine) (h : caseEXECUTE x m = some m2) :
    m2.arch.REG_FILE i = m.arch.REG_FILE i := by
  obtain ⟨m1, h1, h2⟩ := caseEXECUTE_eq_some x m m2 h
  rw [h2]
  rcases switchType_eq_some x m m1 h1 with ⟨_, he⟩ | ⟨_, g, t, he⟩
  · rw [he]
  · rw [he]
    simp [call, hreg]

/-! ## Cycles -/

theorem step_FETCH (x : Externals) (m : Machine) (hm : m.state = CPU_STATES.FETCH) :
    step x m = some (caseFETCH m) := by
  simp [step, hm]

theorem step_DECODE (x : Externals) (m : Machine) (hm : m.state = CPU_STATES.DECODE) :
    step x m = some (caseDECODE x m) := by
  simp [step, hm]

theorem step_EXECUTE (x : Externals) (m : Machine) (hm : m.state = CPU_STATES.EXECUTE) :
    step x m = caseEXECUTE x m := by
  simp [step, hm]

theorem step_HANDLE_DEVICES (x : Externals) (m : Machine)
    (hm : m.state = CPU_STATES.HANDLE_DEVICES) :
    step x m = some (caseHANDLE_DEVICES m) := by
  simp [step, hm]

theorem steps_succ (x : Externals) (n : Nat) (m : Machine) :
    steps x (n + 1) m = (step x m).bind (steps x n) := rfl

theorem steps_short_cycle (x : Externals) (m : Machine) (hm : m.state = CPU_STATES.FETCH)
    (h : (caseFETCH m).state = CPU_STATES.HANDLE_DEVICES) :
    steps x 2 m = some (caseHANDLE_DEVICES (caseFETCH m)) := by
  rw [steps_succ, step_FETCH x m hm, Option.some_bind, steps_succ,
    step_HANDLE_DEVICES x _ h, Option.some_bind]
  rfl

theorem steps_to_EXECUTE (x : Externals) (m : Machine) (hm : m.state = CPU_STATES.FETCH)
    (h : (caseFETCH m).state = CPU_STATES.DECODE) :
    steps x 2 m = some (caseDECODE x (caseFETCH m)) := by
  rw [steps_succ, step_FETCH x m hm, Option.some_bind, steps_succ,
    step_DECODE x _ h, Option.some_bind]
  rfl

theorem steps_long_cycle (x : Externals) (m : Machine) (hm : m.state = CPU_STATES.FETCH)
    (h : (caseFETCH m).state = CPU_STATES.DECODE) :
    steps x 4 m =
      (caseEXECUTE x (caseDECODE x (caseFETCH m))).map caseHANDLE_DEVICES := by
  rw [steps_succ, step_FETCH x m hm, Option.some_bind, steps_succ,
    step_DECODE x _ h, Option.some_bind, steps_succ,
    step_EXECUTE x (caseDECODE x (caseFETCH m)) rfl]
  rcases hE : caseEXECUTE x (caseDECODE x (caseFETCH m)) with _ | m3
  · rfl
  · have h3 := caseEXECUTE_state x _ m3 hE
    rw [Option.some_bind, steps_succ, step_HANDLE_DEVICES x m3 h3, Option.some_bind]
    rfl

/-- A step taken in a state other than `EXECUTE` leaves the clock unchanged. -/
theorem step_SYS_CLK_of_not_EXECUTE (x : Externals) (n n1 : Machine)
    (hs : n.state ≠ CPU_STATES.EXECUTE) (h : step x n = some n1) :
    n1.arch.SYS_CLK = n.arch.SYS_CLK := by
  unfold step at h
  rcases hS : n.state with _ | _ | _ | _
  · rw [hS] at h
    simp only [Option.some.injEq] at h
    rw [← h, caseFETCH_SYS_CLK]
  · rw [hS] at h
    simp only [Option.some.injEq] at h
    rw [← h]
    rfl
  · exact absurd hS hs
  · rw [hS] at h
    simp only [Option.some.injEq] at h
    rw [← h]
    rfl

theorem steps_long_cycle_eq_none_iff (x : Externals) (m : Machine)
    (hm : m.state = CPU_STATES.FETCH) (h : (caseFETCH m).state = CPU_STATES.DECODE) :
    steps x 4 m = Option.none ↔
      (x.INST_TYPE (fetch m).1 = some INST_TYPES.ARITHMETIC ∧ 25 ≤ ARITH_TYPE (fetch m).1) := by
  rw [steps_long_cycle x m hm h, Option.map_eq_none', caseEXECUTE_eq_none_iff]
  show (x.INST_TYPE (caseFETCH m).INST = _ ∧ 25 ≤ ARITH_TYPE (caseFETCH m).INST) ↔ _
  rw [caseFETCH_INST]

theorem steps_long_cycle_eq_some (x : Externals) (m m4 : Machine)
    (hm : m.state = CPU_STATES.FETCH) (h : (caseFETCH m).state = CPU_STATES.DECODE)
    (h4 : steps x 4 m = some m4) :
    ∃ m3, caseEXECUTE x (caseDECODE x (caseFETCH m)) = some m3 ∧ m4 = caseHANDLE_DEVICES m3 := by
  rw [steps_long_cycle x m hm h, Option.map_eq_some'] at h4
  obtain ⟨m3, h3, h5⟩ := h4
  exact ⟨m3, h3, h5.symm⟩

/-! ## The system clock -/

/-- The clock over the cycles that have a result: assume the opcode handlers do not
write `SYS_CLK`, and let the machine be in state `FETCH`. If the `FETCH` step goes to `HANDLE_DEVICES`, the two steps back to `FETCH`
have a result and leave `SYS_CLK` unchanged. If it goes to `DECODE`, the second step ends in
`EXECUTE`, and whenever the four steps back to `FETCH` are defined (they are unless the
word is classified `ARITHMETIC` with an opcode field of 25 or more, where the dispatch is
outside the table) the clock afterwards is the old clock plus one modulo the range of
`unsigned long`. No step taken in a state other than `EXECUTE` changes `SYS_CLK`. -/
theorem clock_once_per_defined_cycle (x : Externals)
    (hclk : ∀ g INST a, (x.handler g INST a).SYS_CLK = a.SYS_CLK)
    (m : Machine) (hm : m.state = CPU_STATES.FETCH) :
    ((caseFETCH m).state = CPU_STATES.HANDLE_DEVICES →
      ∃ m2, steps x 2 m = some m2 ∧ m2.state = CPU_STATES.FETCH ∧
        m2.arch.SYS_CLK = m.arch.SYS_CLK) ∧
    ((caseFETCH m).state = CPU_STATES.DECODE →
      (∃ m2, steps x 2 m = some m2 ∧ m2.state = CPU_STATES.EXECUTE) ∧
      (steps x 4 m = Option.none ↔
        (x.INST_TYPE (fetch m).1 = some INST_TYPES.ARITHMETIC ∧
          25 ≤ ARITH_TYPE (fetch m).1)) ∧
      (∀ m4, steps x 4 m = some m4 →
        m4.state = CPU_STATES.FETCH ∧
        m4.arch.SYS_CLK = (m.arch.SYS_CLK + 1) % ULONG_RANGE)) ∧
    (∀ n n1 : Machine, n.state ≠ CPU_STATES.EXECUTE → step x n = some n1 →
      n1.arch.SYS_CLK = n.arch.SYS_CLK) := by
  refine ⟨?_, ?_, fun n n1 => step_SYS_CLK_of_not_EXECUTE x n n1⟩
  · intro h
    refine ⟨_, steps_short_cycle x m hm h, rfl, ?_⟩
    show (caseFETCH m).arch.SYS_CLK = m.arch.SYS_CLK
    exact caseFETCH_SYS_CLK m
  · intro h
    refine ⟨⟨_, steps_to_EXECUTE x m hm h, rfl⟩, steps_long_cycle_eq_none_iff x m hm h, ?_⟩
    intro m4 h4
    obtain ⟨m3, h3, h5⟩ := steps_long_cycle_eq_some x m m4 hm h h4
    refine ⟨by rw [h5]; rfl, ?_⟩
    have hc := caseEXECUTE_SYS_CLK x hclk _ m3 h3
    rw [h5]
    show m3.arch.SYS_CLK = _
    rw [hc]
    show ((caseFETCH m).arch.SYS_CLK + 1) % ULONG_RANGE = _
    rw [caseFETCH_SYS_CLK]

/-- A cycle that has a result: with handlers that change nothing, the machine that
starts at `PC = 0` over a memory filled with the byte 1 is in state `FETCH`, its cycle passes through
`EXECUTE`, and after the four steps the clock has gone from 0 to 1. -/
theorem clock_once_per_defined_cycle_instance :
    (sampleMachine 0 1).state = CPU_STATES.FETCH ∧
    (sampleMachine 0 1).arch.SYS_CLK = 0 ∧
    (∃ m4, steps sampleExternals 4 (sampleMachine 0 1) = some m4 ∧
      m4.state = CPU_STATES.FETCH ∧ m4.arch.SYS_CLK = 1) :=
  ⟨rfl, rfl, _, rfl,
    ((clock_once_per_defined_cycle sampleExternals (fun _ _ _ => rfl)
      (sampleMachine 0 1) rfl).2.1 (by decide)).2.2 _ rfl⟩

/-- C3 (code defect, the one of C1): with handlers that do not write `SYS_CLK`, a cycle
that goes from `FETCH` to `HANDLE_DEVICES` leaves the clock unchanged, a cycle through
`EXECUTE` that has a result adds one to it modulo the range of `unsigned long`, and no
step outside `EXECUTE` changes it. But a cycle through `EXECUTE` has no result when the
word fetched is classified `ARITHMETIC` with an opcode field of 25 or more: the machine
reaches `EXECUTE` with the clock unchanged and the `EXECUTE` step, whose call goes outside
the table, never arrives at `SYS_CLK++`. So it is for the initial machine over a memory
holding `0x5900` at address 0: it is in state `EXECUTE` with the clock at 0 after two
steps and has no state after four. -/
theorem C3_cycle_of_opcode_25_never_increments_the_clock :
    (∀ (x : Externals), (∀ g INST a, (x.handler g INST a).SYS_CLK = a.SYS_CLK) →
      ∀ m : Machine, m.state = CPU_STATES.FETCH →
        ((caseFETCH m).state = CPU_STATES.HANDLE_DEVICES →
          ∃ m2, steps x 2 m = some m2 ∧ m2.state = CPU_STATES.FETCH ∧
            m2.arch.SYS_CLK = m.arch.SYS_CLK) ∧
        ((caseFETCH m).state = CPU_STATES.DECODE →
          ¬ (x.INST_TYPE (fetch m).1 = some INST_TYPES.ARITHMETIC ∧
            25 ≤ ARITH_TYPE (fetch m).1) →
          ∃ m4, steps x 4 m = some m4 ∧ m4.state = CPU_STATES.FETCH ∧
            m4.arch.SYS_CLK = (m.arch.SYS_CLK + 1) % ULONG_RANGE) ∧
        (∀ n n1 : Machine, n.state ≠ CPU_STATES.EXECUTE → step x n = some n1 →
          n1.arch.SYS_CLK = n.arch.SYS_CLK)) ∧
    (∀ (x : Externals) (m : Machine), m.state = CPU_STATES.FETCH →
      (caseFETCH m).state = CPU_STATES.DECODE →
      x.INST_TYPE (fetch m).1 = some INST_TYPES.ARITHMETIC →
      25 ≤ ARITH_TYPE (fetch m).1 →
        (∃ m2, steps x 2 m = some m2 ∧ m2.state = CPU_STATES.EXECUTE ∧
          m2.arch.SYS_CLK = m.arch.SYS_CLK ∧ step x m2 = Option.none) ∧
        steps x 4 m = Option.none) ∧
    (initialMachine (fun a => if a = 1 then 0x59 else 0)).state = CPU_STATES.FETCH ∧
    (initialMachine (fun a => if a = 1 then 0x59 else 0)).arch.SYS_CLK = 0 ∧
    (∀ g INST a, (sampleExternals.handler g INST a).SYS_CLK = a.SYS_CLK) ∧
    (∃ m2, steps sampleExternals 2 (initialMachine (fun a => if a = 1 then 0x59 else 0)) =
        some m2 ∧
      m2.state = CPU_STATES.EXECUTE ∧ m2.INST = 0x5900 ∧
      m2.type = some INST_TYPES.ARITHMETIC ∧ ARITH_TYPE m2.INST = 25 ∧
      m2.arch.SYS_CLK = 0 ∧ step sampleExternals m2 = Option.none) ∧
    steps sampleExternals 4 (initialMachine (fun a => if a = 1 then 0x59 else 0)) =
      Option.none := by
  refine ⟨?_, ?_, rfl, rfl, fun _ _ _ => rfl,
    ⟨_, rfl, rfl, by decide, rfl, by decide, rfl, rfl⟩, rfl⟩
  · intro x hclk m hm
    obtain ⟨hshort, hlong, hother⟩ := clock_once_per_defined_cycle x hclk m hm
    refine ⟨hshort, ?_, hother⟩
    intro hd hin
    obtain ⟨_, hnone, hsome⟩ := hlong hd
    rcases h4 : steps x 4 m with _ | m4
    · exact absurd (hnone.mp h4) hin
    · exact ⟨m4, rfl, hsome m4 h4⟩
  · intro x m hm hd ht hi
    refine ⟨⟨_, steps_to_EXECUTE x m hm hd, rfl, ?_, ?_⟩,
      (steps_long_cycle_eq_none_iff x m hm hd).mpr ⟨ht, hi⟩⟩
    · show (caseFETCH m).arch.SYS_CLK = m.arch.SYS_CLK
      exact caseFETCH_SYS_CLK m
    · rw [step_EXECUTE x _ rfl, caseEXECUTE_eq_none_iff]
      show x.INST_TYPE (caseFETCH m).INST = _ ∧ 25 ≤ ARITH_TYPE (caseFETCH m).INST
      rw [caseFETCH_INST]
      exact ⟨ht, hi⟩

/-! ## Idling at the halt address -/

/-- C5: let the machine be in state `FETCH` with `PC` holding -1, the signed value of
`0xFFFF`. Then the `FETCH` step goes to `HANDLE_DEVICES` and the next step back to
`FETCH`; after these two steps every register other than `PC` is unchanged, memory is
unchanged, the event log is unchanged (no bus read, no handler invoked), `SYS_CLK` and the
run-flag are unchanged, and `PC` is 2 more than before. -/
theorem C5_halt_address_cycle_is_idle (x : Externals) (m : Machine)
    (hm : m.state = CPU_STATES.FETCH) (hpc : m.arch.REG_FILE PC = -1) :
    toUShort (m.arch.REG_FILE PC) = 0xFFFF ∧
    ∃ m1 m2, step x m = some m1 ∧ m1.state = CPU_STATES.HANDLE_DEVICES ∧
      step x m1 = some m2 ∧ m2.state = CPU_STATES.FETCH ∧
      steps x 2 m = some m2 ∧
      (∀ i : Fin 8, i ≠ PC → m2.arch.REG_FILE i = m.arch.REG_FILE i) ∧
      m2.arch.MEM = m.arch.MEM ∧
      m1.log = m.log ∧ m2.log = m.log ∧
      m2.arch.SYS_CLK = m.arch.SYS_CLK ∧
      m2.WAITING_FOR_SIGNAL = m.WAITING_FOR_SIGNAL ∧
      m2.arch.REG_FILE PC = m.arch.REG_FILE PC + 2 := by
  have ha : toUShort (m.arch.REG_FILE PC) = HCF := by rw [hpc]; decide
  have hf : fetch m = (FALSE, m) := fetch_of_eq m ha
  have hs : (caseFETCH m).state = CPU_STATES.HANDLE_DEVICES := by
    rw [caseFETCH_state, hf]
    simp
  have hl : (caseFETCH m).log = m.log := by rw [caseFETCH_log, hf]
  refine ⟨ha, caseFETCH m, caseHANDLE_DEVICES (caseFETCH m), step_FETCH x m hm, hs,
    step_HANDLE_DEVICES x _ hs, rfl, steps_short_cycle x m hm hs, ?_, ?_, hl, hl, ?_, ?_, ?_⟩
  · intro i hi
    exact caseFETCH_other m i hi
  · exact caseFETCH_MEM m
  · exact caseFETCH_SYS_CLK m
  · exact caseFETCH_flag m
  · show (caseFETCH m).arch.REG_FILE PC = _
    rw [caseFETCH_PC, hpc]
    decide

/-- Instance of C5: the sample machine with `PC = -1` is in state `FETCH`; after its idle
cycle `PC` is 1. -/
theorem C5_halt_address_cycle_is_idle_witness :
    (sampleMachine (-1) 1).state = CPU_STATES.FETCH ∧
    (sampleMachine (-1) 1).arch.REG_FILE PC = -1 ∧
    ∃ m2, steps sampleExternals 2 (sampleMachine (-1) 1) = some m2 ∧
      m2.log = [] ∧ m2.arch.SYS_CLK = 0 ∧ m2.arch.REG_FILE PC = 1 := by
  obtain ⟨_, m1, m2, _, _, _, _, h2, _, _, _, hl, hc, _, hp⟩ :=
    C5_halt_address_cycle_is_idle sampleExternals (sampleMachine (-1) 1) rfl (by decide)
  exact ⟨rfl, by decide, m2, h2, hl, hc, by rw [hp]; decide⟩

/-! ## The program counter -/

/-- C7: in state `FETCH` the step stores `PC + 2` wrapped to a signed 16-bit value: the new
`PC` lies in the range of `signed short`, is congruent to `PC + 2` modulo 2^16, and as an
unsigned address is the old address plus 2 modulo 65536 (so `0x7FFE` is followed by
`0x8000` and `0xFFFF` by `0x0001`), whatever `fetch` returned. A `DECODE` or
`HANDLE_DEVICES` step leaves the register file unchanged. Hence, when the handlers do not
write `PC`, a cycle back to `FETCH` (two steps when the `FETCH` step goes to
`HANDLE_DEVICES`, four steps otherwise, whenever they are defined) advances the address in
`PC` by exactly 2 modulo 65536. -/
theorem C7_pc_advances_by_two (x : Externals) (m : Machine)
    (hm : m.state = CPU_STATES.FETCH) :
    (∃ m1, step x m = some m1 ∧
      m1.arch.REG_FILE PC = toShort (m.arch.REG_FILE PC + 2) ∧
      -32768 ≤ m1.arch.REG_FILE PC ∧ m1.arch.REG_FILE PC ≤ 32767 ∧
      (m1.arch.REG_FILE PC - (m.arch.REG_FILE PC + 2)) % 65536 = 0 ∧
      toUShort (m1.arch.REG_FILE PC) = (toUShort (m.arch.REG_FILE PC) + 2) % 65536 ∧
      (toUShort (m.arch.REG_FILE PC) = 0x7FFE → toUShort (m1.arch.REG_FILE PC) = 0x8000) ∧
      (toUShort (m.arch.REG_FILE PC) = 0xFFFF → toUShort (m1.arch.REG_FILE PC) = 0x0001)) ∧
    (∀ n n1 : Machine,
      n.state = CPU_STATES.DECODE ∨ n.state = CPU_STATES.HANDLE_DEVICES →
      step x n = some n1 → n1.arch.REG_FILE = n.arch.REG_FILE) ∧
    ((∀ g INST a, (x.handler g INST a).REG_FILE PC = a.REG_FILE PC) →
      ((caseFETCH m).state = CPU_STATES.HANDLE_DEVICES →
        ∃ m2, steps x 2 m = some m2 ∧ m2.state = CPU_STATES.FETCH ∧
          toUShort (m2.arch.REG_FILE PC) = (toUShort (m.arch.REG_FILE PC) + 2) % 65536) ∧
      ((caseFETCH m).state = CPU_STATES.DECODE →
        ∀ m4, steps x 4 m = some m4 →
          m4.state = CPU_STATES.FETCH ∧
          toUShort (m4.arch.REG_FILE PC) = (toUShort (m.arch.REG_FILE PC) + 2) % 65536)) := by
  have hpc := caseFETCH_PC m
  have hadd := toUShort_toShort_add_two (m.arch.REG_FILE PC)
  refine ⟨⟨caseFETCH m, step_FETCH x m hm, hpc, ?_, ?_, ?_, ?_, ?_, ?_⟩, ?_, ?_⟩
  · rw [hpc]; unfold toShort; omega
  · rw [hpc]; unfold toShort; omega
  · rw [hpc]; unfold toShort; omega
  · rw [hpc, hadd]
  · intro h
    rw [hpc, hadd, h]
  · intro h
    rw [hpc, hadd, h]
  · intro n n1 hn h
    rcases hn with hn | hn
    · rw [step_DECODE x n hn] at h
      simp only [Option.some.injEq] at h
      rw [← h]
      rfl
    · rw [step_HANDLE_DEVICES x n hn] at h
      simp only [Option.some.injEq] at h
      rw [← h]
      rfl
  · intro hreg
    constructor
    · intro h
      refine ⟨_, steps_short_cycle x m hm h, rfl, ?_⟩
      show toUShort ((caseFETCH m).arch.REG_FILE PC) = _
      rw [hpc, hadd]
    · intro h m4 h4
      obtain ⟨m3, h3, h5⟩ := steps_long_cycle_eq_some x m m4 hm h h4
      refine ⟨by rw [h5]; rfl, ?_⟩
      have hr := caseEXECUTE_REG_FILE x PC hreg _ m3 h3
      rw [h5]
      show toUShort (m3.arch.REG_FILE PC) = _
      rw [hr]
      show toUShort ((caseFETCH m).arch.REG_FILE PC) = _
      rw [hpc, hadd]

/-- Instance of C7: the sample machine with `PC = 0x7FFE` (32766) is in state `FETCH`;
its `FETCH` step leaves `PC` at -32768, the address `0x8000`. -/
theorem C7_pc_advances_by_two_witness :
    (sampleMachine 0x7FFE 1).state = CPU_STATES.FETCH ∧
    toUShort ((sampleMachine 0x7FFE 1).arch.REG_FILE PC) = 0x7FFE ∧
    ∃ m1, step sampleExternals (sampleMachine 0x7FFE 1) = some m1 ∧
      m1.arch.REG_FILE PC = -32768 ∧ toUShort (m1.arch.REG_FILE PC) = 0x8000 := by
  obtain ⟨⟨m1, h1, hp, _, _, _, _, h8, _⟩, _, _⟩ :=
    C7_pc_advances_by_two sampleExternals (sampleMachine 0x7FFE 1) rfl
  exact ⟨rfl, by decide, m1, h1, by rw [hp]; decide, h8 (by decide)⟩

/-! ## Reserved opcodes -/

/-- A word classified `ARITHMETIC` whose opcode field selects an entry `none` of the table
is dispatched to `none`; when `none` does nothing, the `EXECUTE` step changes only the
event log, the clock and the state. -/
theorem caseEXECUTE_reserved_in_table (x : Externals) (m : Machine)
    (ht : m.type = some INST_TYPES.ARITHMETIC)
    (hi : ARITHMETIC_PTR[ARITH_TYPE m.INST]? = some Handler.none)
    (hnone : ∀ INST a, x.handler Handler.none INST a = a) :
    caseEXECUTE x m = some
      { m with
        arch := { m.arch with SYS_CLK := (m.arch.SYS_CLK + 1) % ULONG_RANGE }
        state := CPU_STATES.HANDLE_DEVICES
        log := m.log ++ [Event.call Handler.none m.INST] } := by
  simp [caseEXECUTE, switchType, ht, hi, call, hnone]

/-- C8 (code defect, the one of C1): the opcode indices without a mnemonic handler are the
odd indices below 16, which hold `none`, and the indices 25 to 31, which have no entry at
all. For the former the dispatch calls `none` and, `none` doing nothing, registers and
memory are unchanged. For the latter the claim fails: the `EXECUTE` step of the
`ARITHMETIC` word `0x5900`, whose opcode field is 25, has no defined result. The branch
table holds no `none`. -/
theorem C8_reserved_opcodes_from_25_have_no_entry :
    (∀ i : Fin 32,
      (ARITHMETIC_PTR[i.val]? = some Handler.none ↔ (i.val % 2 = 1 ∧ i.val < 16)) ∧
      (ARITHMETIC_PTR[i.val]? = Option.none ↔ 25 ≤ i.val)) ∧
    (∀ (x : Externals) (m m1 : Machine),
      (∀ INST a, x.handler Handler.none INST a = a) →
      m.type = some INST_TYPES.ARITHMETIC →
      ARITHMETIC_PTR[ARITH_TYPE m.INST]? = some Handler.none →
      caseEXECUTE x m = some m1 →
        m1.log = m.log ++ [Event.call Handler.none m.INST] ∧
        m1.arch.REG_FILE = m.arch.REG_FILE ∧ m1.arch.MEM = m.arch.MEM) ∧
    Handler.none ∉ BRANCH_PTR ∧
    (sampleArithmetic 0x5900).state = CPU_STATES.EXECUTE ∧
    (sampleArithmetic 0x5900).type = some INST_TYPES.ARITHMETIC ∧
    ARITH_TYPE (sampleArithmetic 0x5900).INST = 25 ∧
    step sampleExternals (sampleArithmetic 0x5900) = Option.none := by
  refine ⟨by decide, ?_, by decide, rfl, rfl, by decide, rfl⟩
  intro x m m1 hnone ht hi h
  rw [caseEXECUTE_reserved_in_table x m ht hi hnone] at h
  simp only [Option.some.injEq] at h
  rw [← h]
  exact ⟨rfl, rfl, rfl⟩

/-! ## Classes and handlers -/

theorem call_log (x : Externals) (g : Handler) (m : Machine) :
    (call x g m).log = m.log ++ [Event.call g m.INST] := rfl

/-- C10 (code defect, the one of C1): the sub-type computed for the `LD_ST_MOVL_MOVLZ`
class is one of the four pairwise different labels `LD`, `ST`, `MOVL`, `MOVLZ` for every
word. Whenever the class left by `DECODE` is one of the seven case labels and the dispatch
has a result, exactly one handler call is added to the log; when the class is none of the
labels, no handler is called. But the dispatch has no result when the class is
`ARITHMETIC` and the opcode field is 25 or more: a machine in state `DECODE` holding the
word `0x5900`, once `INST_TYPE` classifies it as `ARITHMETIC`, reaches `EXECUTE` and the
`EXECUTE` step has no defined result, so no handler of the table is invoked for it. -/
theorem C10_arithmetic_words_from_opcode_25_get_no_handler :
    (∀ INST : Nat,
      (INST &&& 0x1800) >>> 11 = LD ∨ (INST &&& 0x1800) >>> 11 = ST ∨
      (INST &&& 0x1800) >>> 11 = MOVL ∨ (INST &&& 0x1800) >>> 11 = MOVLZ) ∧
    [LD, ST, MOVL, MOVLZ].Nodup ∧
    (∀ (x : Externals) (m m1 : Machine), m.type ≠ Option.none → switchType x m = some m1 →
      ∃ g, m1.log = m.log ++ [Event.call g m.INST]) ∧
    (∀ (x : Externals) (m : Machine), m.type = Option.none → switchType x m = some m) ∧
    (∀ (x : Externals) (m : Machine), switchType x m = Option.none ↔
      (m.type = some INST_TYPES.ARITHMETIC ∧ 25 ≤ ARITH_TYPE m.INST)) ∧
    (∀ (x : Externals) (m : Machine), m.state = CPU_STATES.DECODE → m.INST = 0x5900 →
      x.INST_TYPE 0x5900 = some INST_TYPES.ARITHMETIC →
      (∃ m1, step x m = some m1 ∧ m1.state = CPU_STATES.EXECUTE ∧
        step x m1 = Option.none)) ∧
    (∃ m1, step sampleExternals { sampleArithmetic 0x5900 with
        state := CPU_STATES.DECODE, type := Option.none } = some m1 ∧
      m1.state = CPU_STATES.EXECUTE ∧ m1.type = some INST_TYPES.ARITHMETIC ∧
      ARITH_TYPE m1.INST = 25 ∧ step sampleExternals m1 = Option.none) := by
  refine ⟨?_, by decide, ?_, ?_, switchType_eq_none_iff, ?_, ⟨_, rfl, rfl, rfl, by decide, rfl⟩⟩
  · intro INST
    have h := temp_type_lt INST
    unfold LD ST MOVL MOVLZ
    omega
  · intro x m m1 ht h
    rcases switchType_eq_some x m m1 h with ⟨h0, _⟩ | ⟨_, g, t, he⟩
    · exact absurd h0 ht
    · exact ⟨g, by rw [he]; rfl⟩
  · intro x m ht
    simp [switchType, ht]
  · intro x m hs hi hc
    refine ⟨caseDECODE x m, step_DECODE x m hs, rfl, ?_⟩
    rw [step_EXECUTE x _ rfl, caseEXECUTE_eq_none_iff]
    show x.INST_TYPE m.INST = _ ∧ 25 ≤ ARITH_TYPE m.INST
    rw [hi]
    exact ⟨hc, by decide⟩

/-! ## Leaving the loop -/

theorem step_flag (x : Externals) (m m1 : Machine) (h : step x m = some m1) :
    m1.WAITING_FOR_SIGNAL = m.WAITING_FOR_SIGNAL := by
  unfold step at h
  split at h
  · simp only [Option.some.injEq] at h
    rw [← h, caseFETCH_flag]
  · simp only [Option.some.injEq] at h
    rw [← h]
    rfl
  · obtain ⟨m0, h0, h2⟩ := caseEXECUTE_eq_some x m m1 h
    rw [h2]
    rcases switchType_eq_some x m m0 h0 with ⟨_, he⟩ | ⟨_, g, t, he⟩
    · rw [he]
    · rw [he]
      rfl
  · simp only [Option.some.injEq] at h
    rw [← h]
    rfl

/-- The successor state of each step: the cycle of `switch (state)`. -/
theorem step_state (x : Externals) (m m1 : Machine) (h : step x m = some m1) :
    (m.state = CPU_STATES.FETCH ∧
      (m1.state = CPU_STATES.DECODE ∨ m1.state = CPU_STATES.HANDLE_DEVICES)) ∨
    (m.state = CPU_STATES.DECODE ∧ m1.state = CPU_STATES.EXECUTE) ∨
    (m.state = CPU_STATES.EXECUTE ∧ m1.state = CPU_STATES.HANDLE_DEVICES) ∨
    (m.state = CPU_STATES.HANDLE_DEVICES ∧ m1.state = CPU_STATES.FETCH) := by
  unfold step at h
  split at h
  next hs =>
    simp only [Option.some.injEq] at h
    rw [← h]
    exact Or.inl ⟨hs, (caseFETCH_state_cases m).symm⟩
  next hs =>
    simp only [Option.some.injEq] at h
    rw [← h]
    exact Or.inr (Or.inl ⟨hs, rfl⟩)
  next hs =>
    exact Or.inr (Or.inr (Or.inl ⟨hs, caseEXECUTE_state x m m1 h⟩))
  next hs =>
    simp only [Option.some.injEq] at h
    rw [← h]
    exact Or.inr (Or.inr (Or.inr ⟨hs, rfl⟩))

theorem loop_of_flag_false (x : Externals) (sigs : List Bool) (m : Machine)
    (h : m.WAITING_FOR_SIGNAL = false) : loop x sigs m = Outcome.exited m := by
  cases sigs <;> simp [loop, h]

/-- When the first signal arrives during pass `k` of the loop body, the loop makes exactly
`k + 1` steps and is then left. -/
theorem loop_first_signal (x : Externals) (rest : List Bool) :
    ∀ (k : Nat) (m mk m1 : Machine), m.WAITING_FOR_SIGNAL = true →
      steps x k m = some mk → step x mk = some m1 →
      loop x (List.replicate k false ++ true :: rest) m = Outcome.exited (SignalHandler m1) := by
  intro k
  induction k with
  | zero =>
    intro m mk m1 hflag hk h1
    simp only [steps, Option.some.injEq] at hk
    subst hk
    simp only [List.replicate_zero, List.nil_append, loop, hflag, if_true, h1]
    exact loop_of_flag_false x rest _ rfl
  | succ k ih =>
    intro m mk m1 hflag hk h1
    rw [steps_succ] at hk
    rcases hs : step x m with _ | m0
    · rw [hs] at hk
      simp at hk
    · rw [hs, Option.some_bind] at hk
      have hf : m0.WAITING_FOR_SIGNAL = true := by rw [step_flag x m m0 hs, hflag]
      simp only [List.replicate_succ, List.cons_append, loop, hflag, if_true, hs]
      exact ih m0 mk m1 hf hk h1

/-- While no signal arrives and the flag is set, the loop is not left. -/
theorem loop_no_signal_not_exited (x : Externals) :
    ∀ (n : Nat) (m e : Machine), m.WAITING_FOR_SIGNAL = true →
      loop x (List.replicate n false) m ≠ Outcome.exited e := by
  intro n
  induction n with
  | zero =>
    intro m e hflag
    simp [loop, hflag]
  | succ n ih =>
    intro m e hflag
    simp only [List.replicate_succ, loop, hflag, if_true]
    rcases hs : step x m with _ | m0
    · simp
    · have hf : m0.WAITING_FOR_SIGNAL = true := by rw [step_flag x m m0 hs, hflag]
      simpa using ih m0 e hf

/-- C4 (amended): the loop tests the run-flag before every step, not once per cycle. Let
the flag be set and let the first signal arrive during pass `k` of the loop body, the
steps up to and including that pass being defined. Then that pass is completed, the loop
is left right after it with the flag cleared, and the state at the exit is the successor
state of the step completed last: `DECODE` or `HANDLE_DEVICES` after a `FETCH` step,
`EXECUTE` after a `DECODE` step, `HANDLE_DEVICES` after an `EXECUTE` step, and `FETCH`
exactly when that last step was a `HANDLE_DEVICES` step. -/
theorem C4_loop_is_left_after_the_step_in_progress (x : Externals) (k : Nat)
    (rest : List Bool) (m mk m1 : Machine)
    (hflag : m.WAITING_FOR_SIGNAL = true)
    (hk : steps x k m = some mk) (h1 : step x mk = some m1) :
    loop x (List.replicate k false ++ true :: rest) m = Outcome.exited (SignalHandler m1) ∧
    (SignalHandler m1).WAITING_FOR_SIGNAL = false ∧
    (SignalHandler m1).arch = m1.arch ∧
    (SignalHandler m1).log = m1.log ∧
    (SignalHandler m1).state = m1.state ∧
    ((mk.state = CPU_STATES.FETCH ∧
        (m1.state = CPU_STATES.DECODE ∨ m1.state = CPU_STATES.HANDLE_DEVICES)) ∨
      (mk.state = CPU_STATES.DECODE ∧ m1.state = CPU_STATES.EXECUTE) ∨
      (mk.state = CPU_STATES.EXECUTE ∧ m1.state = CPU_STATES.HANDLE_DEVICES) ∨
      (mk.state = CPU_STATES.HANDLE_DEVICES ∧ m1.state = CPU_STATES.FETCH)) ∧
    ((SignalHandler m1).state = CPU_STATES.FETCH ↔ mk.state = CPU_STATES.HANDLE_DEVICES) ∧
    (∀ (n : Nat) (e : Machine), loop x (List.replicate n false) m ≠ Outcome.exited e) := by
  have hst := step_state x mk m1 h1
  refine ⟨loop_first_signal x rest k m mk m1 hflag hk h1, rfl, rfl, rfl, rfl, hst, ?_,
    fun n e => loop_no_signal_not_exited x n m e hflag⟩
  show m1.state = CPU_STATES.FETCH ↔ _
  rcases hst with ⟨ha, hb | hb⟩ | ⟨ha, hb⟩ | ⟨ha, hb⟩ | ⟨ha, hb⟩ <;> simp [ha, hb]

/-- Instance of C4 (amended): the sample machine at `PC = 0` over a memory of bytes 1,
with the signal arriving during the second pass (the `DECODE` step), leaves the loop in
state `EXECUTE`. -/
theorem C4_loop_is_left_after_the_step_in_progress_witness :
    (sampleMachine 0 1).WAITING_FOR_SIGNAL = true ∧
    ∃ m1, loop sampleExternals [false, true] (sampleMachine 0 1) = Outcome.exited m1 ∧
      m1.WAITING_FOR_SIGNAL = false ∧ m1.state = CPU_STATES.EXECUTE :=
  ⟨rfl, _,
    (C4_loop_is_left_after_the_step_in_progress sampleExternals 1 [] (sampleMachine 0 1)
      _ _ rfl rfl rfl).1, rfl, rfl⟩

/-- C4 (counterexample): `RunMachine` started on the sample machine (run-flag set,
`PC = 0`, memory of bytes 1) leaves its loop with the state at `DECODE` when the signal
arrives during the first pass, at `EXECUTE` when it arrives during the second, and at
`HANDLE_DEVICES` when it arrives during the third: the loop is left in mid-cycle. -/
theorem C4_loop_can_be_left_in_mid_cycle :
    (sampleMachine 0 1).WAITING_FOR_SIGNAL = true ∧
    (∃ m1, RunMachine sampleExternals [true] (sampleMachine 0 1) = Outcome.exited m1 ∧
      m1.state = CPU_STATES.DECODE) ∧
    (∃ m1, RunMachine sampleExternals [false, true] (sampleMachine 0 1) = Outcome.exited m1 ∧
      m1.state = CPU_STATES.EXECUTE) ∧
    (∃ m1, RunMachine sampleExternals [false, false, true] (sampleMachine 0 1) =
        Outcome.exited m1 ∧
      m1.state = CPU_STATES.HANDLE_DEVICES) :=
  ⟨rfl, ⟨_, rfl, rfl⟩, ⟨_, rfl, rfl⟩, ⟨_, rfl, rfl⟩⟩

/-! ## Positions in the arithmetic table and the sub-type field -/

/-- C15: each of the 17 arithmetic handlers is the entry of `ARITHMETIC_PTR` at the index
whose bit pattern (bits 12 to 8) is written in its comment, ADD at 0 up to SWAP at 24;
the table has 17 entries other than `none`; and an entry of the table is `none` exactly
at the odd indices below 16. -/
theorem C15_arithmetic_handlers_sit_at_their_bit_patterns :
    ARITHMETIC_PTR[opcodeBits 0 0 0 0 0]? = some Handler.Process_ADD ∧
    ARITHMETIC_PTR[opcodeBits 0 0 0 1 0]? = some Handler.Process_ADDC ∧
    ARITHMETIC_PTR[opcodeBits 0 0 1 0 0]? = some Handler.Process_SUB ∧
    ARITHMETIC_PTR[opcodeBits 0 0 1 1 0]? = some Handler.Process_SUBC ∧
    ARITHMETIC_PTR[opcodeBits 0 1 0 0 0]? = some Handler.Process_DADD ∧
    ARITHMETIC_PTR[opcodeBits 0 1 0 1 0]? = some Handler.Process_CMP ∧
    ARITHMETIC_PTR[opcodeBits 0 1 1 0 0]? = some Handler.Process_XOR ∧
    ARITHMETIC_PTR[opcodeBits 0 1 1 1 0]? = some Handler.Process_AND ∧
    ARITHMETIC_PTR[opcodeBits 1 0 0 0 0]? = some Handler.Process_BIT ∧
    ARITHMETIC_PTR[opcodeBits 1 0 0 0 1]? = some Handler.Process_SRA ∧
    ARITHMETIC_PTR[opcodeBits 1 0 0 1 0]? = some Handler.Process_BIC ∧
    ARITHMETIC_PTR[opcodeBits 1 0 0 1 1]? = some Handler.Process_RRC ∧
    ARITHMETIC_PTR[opcodeBits 1 0 1 0 0]? = some Handler.Process_BIS ∧
    ARITHMETIC_PTR[opcodeBits 1 0 1 0 1]? = some Handler.Process_SWPB ∧
    ARITHMETIC_PTR[opcodeBits 1 0 1 1 0]? = some Handler.Process_MOV ∧
    ARITHMETIC_PTR[opcodeBits 1 0 1 1 1]? = some Handler.Process_SXT ∧
    ARITHMETIC_PTR[opcodeBits 1 1 0 0 0]? = some Handler.Process_SWAP ∧
    [opcodeBits 0 0 0 0 0, opcodeBits 0 0 0 1 0, opcodeBits 0 0 1 0 0, opcodeBits 0 0 1 1 0,
      opcodeBits 0 1 0 0 0, opcodeBits 0 1 0 1 0, opcodeBits 0 1 1 0 0, opcodeBits 0 1 1 1 0,
      opcodeBits 1 0 0 0 0, opcodeBits 1 0 0 0 1, opcodeBits 1 0 0 1 0, opcodeBits 1 0 0 1 1,
      opcodeBits 1 0 1 0 0, opcodeBits 1 0 1 0 1, opcodeBits 1 0 1 1 0, opcodeBits 1 0 1 1 1,
      opcodeBits 1 1 0 0 0] =
      [0, 2, 4, 6, 8, 10, 12, 14, 16, 17, 18, 19, 20, 21, 22, 23, 24] ∧
    (ARITHMETIC_PTR.filter (fun g => decide (g ≠ Handler.none))).length = 17 ∧
    (ARITHMETIC_PTR.filter (fun g => decide (g ≠ Handler.none))).Nodup ∧
    (∀ i : Fin ARITHMETIC_PTR.length,
      ARITHMETIC_PTR[i.val]? = some Handler.none ↔ (i.val % 2 = 1 ∧ 1 ≤ i.val ∧ i.val ≤ 15)) := by
  refine ⟨rfl, rfl, rfl, rfl, rfl, rfl, rfl, rfl, rfl, rfl, rfl, rfl, rfl, rfl, rfl, rfl, rfl,
    rfl, by decide, by decide, by decide⟩

theorem switchTempType_temp_type (x : Externals) (m : Machine) :
    (switchTempType x m).temp_type = m.temp_type := by
  unfold switchTempType
  split_ifs <;> rfl

theorem and_0x1800_shiftRight (w : Nat) : (w &&& 0x1800) >>> 11 = (w >>> 11) &&& 3 := by
  apply Nat.eq_of_testBit_eq
  intro j
  have h3 : (0x1800 : Nat) = 3 <<< 11 := by decide
  rw [Nat.testBit_shiftRight, Nat.testBit_and, Nat.testBit_and, Nat.testBit_shiftRight, h3,
    Nat.testBit_shiftLeft]
  simp

/-- C16: for every instruction word `w` the sub-type `(w & 0x1800) >> 11` equals
`(w / 2048) mod 4`, the number formed by bits 12 and 11 (bit 12 counting 2 and bit 11
counting 1); it is below 4; two words that agree in bits 12 and 11 have the same
sub-type, whatever their other bits; and this is the value the `EXECUTE` dispatch leaves in
`temp_type` for a word `w` of class `LD_ST_MOVL_MOVLZ`. -/
theorem C16_sub_type_is_bits_12_and_11 (w : Nat) :
    (w &&& 0x1800) >>> 11 = (w / 2048) % 4 ∧
    (w &&& 0x1800) >>> 11 = 2 * (w.testBit 12).toNat + (w.testBit 11).toNat ∧
    (w &&& 0x1800) >>> 11 < 4 ∧
    (∀ v : Nat, v.testBit 12 = w.testBit 12 → v.testBit 11 = w.testBit 11 →
      (v &&& 0x1800) >>> 11 = (w &&& 0x1800) >>> 11) ∧
    (∀ (x : Externals) (m m1 : Machine), m.type = some INST_TYPES.LD_ST_MOVL_MOVLZ →
      m.INST = w → switchType x m = some m1 → m1.temp_type = (w / 2048) % 4) := by
  have key : ∀ u : Nat, (u &&& 0x1800) >>> 11 = (u / 2048) % 4 := by
    intro u
    rw [and_0x1800_shiftRight, Nat.shiftRight_eq_div_pow]
    exact Nat.and_pow_two_sub_one_eq_mod (u / 2 ^ 11) 2
  have bits : ∀ u : Nat, (u / 2048) % 4 = 2 * (u.testBit 12).toNat + (u.testBit 11).toNat := by
    intro u
    have h11 : u.testBit 11 = decide (u / 2048 % 2 = 1) := by
      rw [Nat.testBit_to_div_mod]
    have h12 : u.testBit 12 = decide (u / 4096 % 2 = 1) := by
      rw [Nat.testBit_to_div_mod]
    rw [h11, h12]
    by_cases a : u / 2048 % 2 = 1 <;> by_cases b : u / 4096 % 2 = 1 <;>
      simp only [a, b, decide_True, decide_False, Bool.toNat_true, Bool.toNat_false] <;> omega
  refine ⟨key w, by rw [key, bits], temp_type_lt w, ?_, ?_⟩
  · intro v h12 h11
    rw [key v, key w, bits v, bits w, h12, h11]
  · intro x m m1 ht hw h
    simp only [switchType, ht, Option.some.injEq] at h
    rw [← h, switchTempType_temp_type, ← key w, ← hw]

/-! ## Evenness of the program counter -/

theorem step_PC_even (x : Externals)
    (hev : ∀ g INST a, a.REG_FILE PC % 2 = 0 → (x.handler g INST a).REG_FILE PC % 2 = 0)
    (m m1 : Machine) (hm : m.arch.REG_FILE PC % 2 = 0) (h : step x m = some m1) :
    m1.arch.REG_FILE PC % 2 = 0 := by
  unfold step at h
  split at h
  · simp only [Option.some.injEq] at h
    rw [← h, caseFETCH_PC]
    unfold toShort
    omega
  · simp only [Option.some.injEq] at h
    rw [← h]
    exact hm
  · obtain ⟨m0, h0, h2⟩ := caseEXECUTE_eq_some x m m1 h
    rw [h2]
    rcases switchType_eq_some x m m0 h0 with ⟨_, he⟩ | ⟨_, g, t, he⟩
    · rw [he]
      exact hm
    · rw [he]
      exact hev g m.INST m.arch hm
  · simp only [Option.some.injEq] at h
    rw [← h]
    exact hm

theorem steps_PC_even (x : Externals)
    (hev : ∀ g INST a, a.REG_FILE PC % 2 = 0 → (x.handler g INST a).REG_FILE PC % 2 = 0) :
    ∀ (n : Nat) (m m1 : Machine), m.arch.REG_FILE PC % 2 = 0 → steps x n m = some m1 →
      m1.arch.REG_FILE PC % 2 = 0 := by
  intro n
  induction n with
  | zero =>
    intro m m1 hm h
    simp only [steps, Option.some.injEq] at h
    rw [← h]
    exact hm
  | succ n ih =>
    intro m m1 hm h
    rw [steps_succ] at h
    rcases hs : step x m with _ | m0
    · rw [hs] at h
      simp at h
    · rw [hs, Option.some_bind] at h
      exact ih m0 m1 (step_PC_even x hev m m0 hm hs) h

/-- A property of machines that every step and the signal handler preserve holds of the
machine in which the loop is left or is observed running. -/
theorem loop_invariant (x : Externals) (P : Machine → Prop)
    (hstep : ∀ m m1, P m → step x m = some m1 → P m1)
    (hsig : ∀ m, P m → P (SignalHandler m)) :
    ∀ (sigs : List Bool) (m e : Machine), P m →
      (loop x sigs m = Outcome.exited e ∨ loop x sigs m = Outcome.running e) → P e := by
  intro sigs
  induction sigs with
  | nil =>
    intro m e hP h
    by_cases hf : m.WAITING_FOR_SIGNAL = true
    · simp only [loop, hf, if_true] at h
      rcases h with h | h
      · cases h
      · cases h
        exact hP
    · have hf0 : m.WAITING_FOR_SIGNAL = false := by simpa using hf
      rw [loop_of_flag_false x [] m hf0] at h
      rcases h with h | h
      · cases h
        exact hP
      · cases h
  | cons s rest ih =>
    intro m e hP h
    by_cases hf : m.WAITING_FOR_SIGNAL = true
    · simp only [loop, hf, if_true] at h
      rcases hs : step x m with _ | m0
      · rw [hs] at h
        simp at h
      · rw [hs] at h
        have hP0 := hstep m m0 hP hs
        cases s
        · exact ih m0 e hP0 (by simpa using h)
        · exact ih (SignalHandler m0) e (hsig m0 hP0) (by simpa using h)
    · have hf0 : m.WAITING_FOR_SIGNAL = false := by simpa using hf
      rw [loop_of_flag_false x (s :: rest) m hf0] at h
      rcases h with h | h
      · cases h
        exact hP
      · cases h

theorem toUShort_even (v : Int) (h : v % 2 = 0) :
    toUShort v % 2 = 0 ∧ toUShort v ≠ 0xFFFF := by
  unfold toUShort
  omega

/-- C11: assume every opcode handler leaves an even `PC` even. The initial register file
has `PC = 0`; every step of the engine, in whichever of the four states, takes a machine
with even `PC` to a machine with even `PC`; hence in every machine reached from the
initial one by any number of steps, and in every machine in which `RunMachine` is left or
observed running whatever the signals, `PC` is even, so the fetch address is even and is
not the halt address `0xFFFF`. -/
theorem C11_pc_is_even_in_every_reachable_state (x : Externals)
    (hev : ∀ g INST a, a.REG_FILE PC % 2 = 0 → (x.handler g INST a).REG_FILE PC % 2 = 0)
    (MEM : Nat → Nat) :
    (initialMachine MEM).arch.REG_FILE PC = 0 ∧
    (∀ m m1 : Machine, m.arch.REG_FILE PC % 2 = 0 → step x m = some m1 →
      m1.arch.REG_FILE PC % 2 = 0) ∧
    (∀ (n : Nat) (m1 : Machine), steps x n (initialMachine MEM) = some m1 →
      m1.arch.REG_FILE PC % 2 = 0 ∧
      toUShort (m1.arch.REG_FILE PC) % 2 = 0 ∧
      toUShort (m1.arch.REG_FILE PC) ≠ 0xFFFF) ∧
    (∀ (sigs : List Bool) (e : Machine),
      (RunMachine x sigs (initialMachine MEM) = Outcome.exited e ∨
        RunMachine x sigs (initialMachine MEM) = Outcome.running e) →
      e.arch.REG_FILE PC % 2 = 0 ∧
      toUShort (e.arch.REG_FILE PC) % 2 = 0 ∧
      toUShort (e.arch.REG_FILE PC) ≠ 0xFFFF) := by
  have h0 : (initialMachine MEM).arch.REG_FILE PC % 2 = 0 := rfl
  refine ⟨rfl, step_PC_even x hev, ?_, ?_⟩
  · intro n m1 h
    have he := steps_PC_even x hev n _ m1 h0 h
    exact ⟨he, toUShort_even _ he⟩
  · intro sigs e h
    have he := loop_invariant x (fun m => m.arch.REG_FILE PC % 2 = 0)
      (step_PC_even x hev) (fun _ hm => hm) sigs _ e h0 h
    exact ⟨he, toUShort_even _ he⟩

/-- Instance of C11: with handlers that change nothing, three steps from the initial
machine over a memory of bytes 1 lead to a machine whose `PC` is even and is not the halt
address. -/
theorem C11_pc_is_even_in_every_reachable_state_witness :
    (∀ (g : Handler) (INST : Nat) (a : ArchState), a.REG_FILE PC % 2 = 0 →
      (sampleExternals.handler g INST a).REG_FILE PC % 2 = 0) ∧
    ∃ m1, steps sampleExternals 3 (initialMachine (fun _ => 1)) = some m1 ∧
      m1.arch.REG_FILE PC % 2 = 0 ∧ toUShort (m1.arch.REG_FILE PC) ≠ 0xFFFF :=
  ⟨fun _ _ _ h => h, _, rfl,
    ((C11_pc_is_even_in_every_reachable_state sampleExternals (fun _ _ _ h => h)
      (fun _ => 1)).2.2.1 3 _ rfl).1,
    ((C11_pc_is_even_in_every_reachable_state sampleExternals (fun _ _ _ h => h)
      (fun _ => 1)).2.2.1 3 _ rfl).2.2⟩

/-! ## The cycle of states -/

/-- C12 (code defect, the one of C1): a `FETCH` step always has a result, in state
`DECODE` or `HANDLE_DEVICES`; a `DECODE` step always ends in `EXECUTE`; a
`HANDLE_DEVICES` step always ends in `FETCH`; `RunMachine` enters its loop in state
`FETCH`; and an `EXECUTE` step ends in `HANDLE_DEVICES` whenever its dispatch stays inside
the tables. But the `EXECUTE` step of an `ARITHMETIC` word with opcode field 25 or more has
no defined result: the machine holding `0x5900` in state `EXECUTE` with the run-flag set
has no successor, and `RunMachine`, started on the initial machine over a memory holding
`0x5900` at address 0 with every word classified `ARITHMETIC`, runs into that state with
its third step. -/
theorem C12_execute_of_opcode_25_has_no_successor :
    (∀ (x : Externals) (m : Machine), m.state = CPU_STATES.FETCH →
      ∃ m1, step x m = some m1 ∧
        (m1.state = CPU_STATES.DECODE ∨ m1.state = CPU_STATES.HANDLE_DEVICES)) ∧
    (∀ (x : Externals) (m : Machine), m.state = CPU_STATES.DECODE →
      ∃ m1, step x m = some m1 ∧ m1.state = CPU_STATES.EXECUTE) ∧
    (∀ (x : Externals) (m : Machine), m.state = CPU_STATES.HANDLE_DEVICES →
      ∃ m1, step x m = some m1 ∧ m1.state = CPU_STATES.FETCH) ∧
    (∀ (x : Externals) (m : Machine), m.state = CPU_STATES.EXECUTE →
      ((∃ m1, step x m = some m1 ∧ m1.state = CPU_STATES.HANDLE_DEVICES) ↔
        ¬ (m.type = some INST_TYPES.ARITHMETIC ∧ 25 ≤ ARITH_TYPE m.INST))) ∧
    (∀ (x : Externals) (sigs : List Bool) (m : Machine),
      ∃ m0, RunMachine x sigs m = loop x sigs m0 ∧ m0.state = CPU_STATES.FETCH ∧
        m0.WAITING_FOR_SIGNAL = m.WAITING_FOR_SIGNAL ∧ m0.arch = m.arch) ∧
    (sampleArithmetic 0x5900).state = CPU_STATES.EXECUTE ∧
    (sampleArithmetic 0x5900).WAITING_FOR_SIGNAL = true ∧
    step sampleExternals (sampleArithmetic 0x5900) = Option.none ∧
    loop sampleExternals [false] (sampleArithmetic 0x5900) = Outcome.undefined ∧
    MEM_RD (fun a => if a = 1 then 0x59 else 0) 0 WORD_BYTE.WORD = 0x5900 ∧
    RunMachine sampleExternals [false, false, false]
        (initialMachine (fun a => if a = 1 then 0x59 else 0)) = Outcome.undefined := by
  refine ⟨?_, ?_, ?_, ?_, ?_, rfl, rfl, rfl, rfl, by decide, rfl⟩
  · intro x m hm
    exact ⟨_, step_FETCH x m hm, (caseFETCH_state_cases m).symm⟩
  · intro x m hm
    exact ⟨_, step_DECODE x m hm, rfl⟩
  · intro x m hm
    exact ⟨_, step_HANDLE_DEVICES x m hm, rfl⟩
  · intro x m hm
    rw [step_EXECUTE x m hm, ← caseEXECUTE_eq_none_iff x m]
    constructor
    · rintro ⟨m1, h1, _⟩ h0
      rw [h0] at h1
      cases h1
    · intro h0
      rcases h1 : caseEXECUTE x m with _ | m1
      · exact absurd h1 h0
      · exact ⟨m1, rfl, caseEXECUTE_state x m m1 h1⟩
  · intro x sigs m
    exact ⟨_, rfl, rfl, rfl, rfl⟩

/-! ## The run-flag on entry -/

/-- C13 (amended): the run-flag is set only by its initialiser
`int WAITING_FOR_SIGNAL = TRUE`, which gives the initial machine a set flag; `RunMachine`
tests the flag as it finds it. With the flag set on entry the call makes at least its first
`FETCH` step; with the flag cleared on entry the loop is left at the first test, in state
`FETCH` and with the flag still cleared, without any step. -/
theorem C13_run_flag_is_tested_as_found (x : Externals) (s : Bool) (rest : List Bool)
    (m : Machine) :
    (∀ MEM : Nat → Nat, (initialMachine MEM).WAITING_FOR_SIGNAL = true) ∧
    (m.WAITING_FOR_SIGNAL = true →
      RunMachine x (s :: rest) m =
        loop x rest
          (if s then SignalHandler (caseFETCH { m with state := CPU_STATES.FETCH })
            else caseFETCH { m with state := CPU_STATES.FETCH })) ∧
    (m.WAITING_FOR_SIGNAL = false →
      RunMachine x (s :: rest) m = Outcome.exited { m with state := CPU_STATES.FETCH } ∧
      RunMachine x [] m = Outcome.exited { m with state := CPU_STATES.FETCH }) := by
  refine ⟨fun _ => rfl, ?_, ?_⟩
  · intro h
    simp [RunMachine, loop, h, step]
  · intro h
    exact ⟨loop_of_flag_false x _ _ h, loop_of_flag_false x _ _ h⟩

/-- C13 (counterexample): `RunMachine` entered with the run-flag cleared, on the sample
machine after `SignalHandler` has run, leaves its loop at once: the flag is still cleared,
no word has been read, and `PC` is still 0, so the first `FETCH` step was not made. -/
theorem C13_cleared_flag_on_entry_runs_no_step :
    (SignalHandler (sampleMachine 0 1)).WAITING_FOR_SIGNAL = false ∧
    (∃ m1, step sampleExternals (sampleMachine 0 1) = some m1 ∧ m1.arch.REG_FILE PC = 2 ∧
      m1.log = [Event.read 0 WORD_BYTE.WORD]) ∧
    (∃ e, RunMachine sampleExternals [false, false, false, false]
        (SignalHandler (sampleMachine 0 1)) = Outcome.exited e ∧
      e.WAITING_FOR_SIGNAL = false ∧ e.state = CPU_STATES.FETCH ∧
      e.log = [] ∧ e.arch.REG_FILE PC = 0 ∧ e.arch.SYS_CLK = 0) :=
  ⟨rfl, ⟨_, rfl, by decide, by decide⟩, ⟨_, rfl, rfl, rfl, rfl, by decide, rfl⟩⟩

/-! ## The sleep bit -/

/-- C14 (code defect): the loop of `RunMachine` tests nothing but the run-flag. With the
flag set, a pass through the loop body is made whatever the status word holds: the sample
machine whose `R6` has all sixteen bits set, the sleep bit among them, makes its `FETCH`
step (the word at address 0 is read and `PC` advances to 2) and the loop goes on. -/
theorem C14_sleep_bit_does_not_stop_the_loop :
    (∀ (x : Externals) (m m1 : Machine), m.WAITING_FOR_SIGNAL = true →
      step x m = some m1 → loop x [false] m = Outcome.running m1) ∧
    sampleSleeping.WAITING_FOR_SIGNAL = true ∧
    sampleSleeping.arch.REG_FILE 6 = -1 ∧
    (∀ i : Fin 16, (toUShort (sampleSleeping.arch.REG_FILE 6)).testBit i.val = true) ∧
    (∃ e, loop sampleExternals [false] sampleSleeping = Outcome.running e ∧
      e.state = CPU_STATES.DECODE ∧
      e.log = [Event.read 0 WORD_BYTE.WORD] ∧
      e.arch.REG_FILE PC = 2 ∧
      e.arch.REG_FILE 6 = -1 ∧
      e.WAITING_FOR_SIGNAL = true) := by
  refine ⟨?_, rfl, by decide, by decide, ⟨_, rfl, by decide, by decide, by decide, by decide, rfl⟩⟩
  intro x m m1 hf hs
  have hf1 : m1.WAITING_FOR_SIGNAL = true := by rw [step_flag x m m1 hs, hf]
  simp [loop, hf, hs, hf1]

/-! ## A call with the run-flag cleared -/

/-- C17: when the run-flag is cleared on entry, `RunMachine` makes no step: whatever the
signals, the loop is left at once in the machine that differs from the one on entry only
in that `state` is `FETCH`, so registers, clock, memory and event log are unchanged and the
flag is still cleared. No step of the loop changes the run-flag, and a later call of
`RunMachine` on the machine so left again makes no step. -/
theorem C17_cleared_flag_runs_nothing (x : Externals) (sigs : List Bool) (m : Machine)
    (hflag : m.WAITING_FOR_SIGNAL = false) :
    (∃ e, RunMachine x sigs m = Outcome.exited e ∧
      e = { m with state := CPU_STATES.FETCH } ∧
      e.state = CPU_STATES.FETCH ∧
      e.arch.REG_FILE = m.arch.REG_FILE ∧
      e.arch.SYS_CLK = m.arch.SYS_CLK ∧
      e.arch.MEM = m.arch.MEM ∧
      e.log = m.log ∧
      e.WAITING_FOR_SIGNAL = false ∧
      (∀ sigs1 : List Bool, RunMachine x sigs1 e = Outcome.exited e)) ∧
    (∀ n n1 : Machine, step x n = some n1 →
      n1.WAITING_FOR_SIGNAL = n.WAITING_FOR_SIGNAL) := by
  refine ⟨⟨_, loop_of_flag_false x sigs _ hflag, rfl, rfl, rfl, rfl, rfl, rfl, hflag, ?_⟩,
    step_flag x⟩
  intro sigs1
  exact loop_of_flag_false x sigs1 _ hflag

/-- Instance of C17: after `SignalHandler` has cleared the flag of the sample machine, a
call of `RunMachine` that is offered four passes makes none. -/
theorem C17_cleared_flag_runs_nothing_witness :
    (SignalHandler (sampleMachine 0 1)).WAITING_FOR_SIGNAL = false ∧
    ∃ e, RunMachine sampleExternals [false, false, false, false]
        (SignalHandler (sampleMachine 0 1)) = Outcome.exited e ∧
      e.log = [] ∧ e.arch.SYS_CLK = 0 ∧ e.WAITING_FOR_SIGNAL = false := by
  obtain ⟨⟨e, he, _, _, _, hc, _, hl, hf, _⟩, _⟩ :=
    C17_cleared_flag_runs_nothing sampleExternals [false, false, false, false]
      (SignalHandler (sampleMachine 0 1)) rfl
  exact ⟨rfl, e, he, hl, hc, hf⟩

end Emulator
